import Mathlib

/-!
Verification of the SeedID deterministic derivation engine.

The development shallowly embeds the TypeScript sources of the repository:
`sdks/core` (passphrase normalization, Argon2id master-key dispatch, HKDF,
namespace helpers), `sdks/wallets` (per-chain wallet roots, ETH/BTC/SOL
address and signing-key derivation, SLIP-10 path parsing).

Strings and byte arrays are both modelled as `List Nat` (UTF-16 code units
resp. byte values); all inputs reachable by the engine are ASCII so the two
coincide on the relevant values.  External cryptographic primitives that the
sources import from libraries (Web Crypto HMAC-SHA256, hash-wasm Argon2id,
noble Keccak-256 / SHA-256 / SHA-512 / RIPEMD-160 / Ed25519, scure BIP32 HD
derivation, the bech32 and bs58 encoders, and the JS built-ins
`String.prototype.normalize` and `toLowerCase`) are taken as explicit
function parameters of the embedded definitions: the repository contains no
implementation of them, only calls.  Everything written in the repository
itself (validation, control flow, byte assembly, path construction, the
HKDF expand loop, the EIP-55 checksum loop, SLIP-10 parsing and folding) is
translated directly.
-/

/-- Error taxonomy of the engine: the sources throw `Error` values whose
role the spec splits into validation and computation failures. -/
inductive SeedidError where
  | validation
  | computation
deriving DecidableEq, Repr

/-- `true` iff an `Except` computation succeeded. -/
def isOkE {α : Type} (e : Except SeedidError α) : Bool :=
  match e with
  | Except.ok _ => true
  | Except.error _ => false

/-- ASCII bytes of the fixed extract salt `seedid/v1` (core `HKDF_SALT`). -/
def HKDF_SALT : List Nat := [115, 101, 101, 100, 105, 100, 47, 118, 49]

/-- ASCII bytes of the label `seedid/v1/nostr:key`. -/
def LABEL_NOSTR_KEY : List Nat :=
  [115, 101, 101, 100, 105, 100, 47, 118, 49, 47, 110, 111, 115, 116, 114, 58, 107, 101, 121]

/-- ASCII bytes of the label `seedid/v1/did:key:ed25519`. -/
def LABEL_DID_KEY_ED25519 : List Nat :=
  [115, 101, 101, 100, 105, 100, 47, 118, 49, 47, 100, 105, 100, 58, 107, 101, 121, 58,
   101, 100, 50, 53, 53, 49, 57]

/-- ASCII bytes of the label `seedid/v1/did:key:secp256k1`. -/
def LABEL_DID_KEY_SECP256K1 : List Nat :=
  [115, 101, 101, 100, 105, 100, 47, 118, 49, 47, 100, 105, 100, 58, 107, 101, 121, 58,
   115, 101, 99, 112, 50, 53, 54, 107, 49]

/-- ASCII bytes of the label `seedid/v1/wallet:eth`. -/
def LABEL_WALLET_ETH : List Nat :=
  [115, 101, 101, 100, 105, 100, 47, 118, 49, 47, 119, 97, 108, 108, 101, 116, 58, 101, 116, 104]

/-- ASCII bytes of the label `seedid/v1/wallet:btc`. -/
def LABEL_WALLET_BTC : List Nat :=
  [115, 101, 101, 100, 105, 100, 47, 118, 49, 47, 119, 97, 108, 108, 101, 116, 58, 98, 116, 99]

/-- ASCII bytes of the label `seedid/v1/wallet:sol`. -/
def LABEL_WALLET_SOL : List Nat :=
  [115, 101, 101, 100, 105, 100, 47, 118, 49, 47, 119, 97, 108, 108, 101, 116, 58, 115, 111, 108]

/-- RFC 5869 cap for SHA-256: `MAX_LEN = 255 * 32` in core `hkdf`. -/
def MAX_HKDF_LEN : Nat := 255 * 32

/-- The expand loop of core `hkdf` (`while (pos < length) { ... }`).
`hm` is the HMAC-SHA256 primitive, `rem` the bytes still needed
(`length - pos`), `t` the previous block `T(i-1)`, `counter` the one-byte
counter written into a `Uint8Array` cell (hence `% 256`).  The loop runs as
long as bytes are missing; `fuel` bounds the iteration count (callers pass
`rem` itself, which suffices because each round emits
`min |T(i)| rem` bytes and real HMAC-SHA256 blocks are 32 bytes long). -/
def hkdfExpand (hm : List Nat → List Nat → List Nat) (prk info : List Nat) :
    Nat → List Nat → Nat → Nat → List Nat
  | 0, _, _, _ => []
  | fuel + 1, t, rem, counter =>
    if rem = 0 then []
    else
      let t2 := hm prk (t ++ info ++ [counter % 256])
      List.take (min t2.length rem) t2 ++
        hkdfExpand hm prk info fuel t2 (rem - min t2.length rem) (counter + 1)

/-- Core `hkdf(ikm, info, { salt, length })`: bounds check on `length`,
HKDF-Extract `prk = hm(salt, ikm)`, then the expand loop starting from the
empty block with counter 1. -/
def hkdf (hm : List Nat → List Nat → List Nat) (ikm info salt : List Nat)
    (length : Int) : Except SeedidError (List Nat) :=
  if length ≤ 0 ∨ (MAX_HKDF_LEN : Int) < length then Except.error SeedidError.validation
  else
    let prk := hm salt ikm
    Except.ok (hkdfExpand hm prk info length.toNat [] length.toNat 1)

/-- The spec's block sequence: `T(0)` empty,
`T(i) = HMAC(PRK, T(i-1) || info || i)` with `i` a one-byte counter. -/
def hkdfSpecT (hm : List Nat → List Nat → List Nat) (prk info : List Nat) : Nat → List Nat
  | 0 => []
  | i + 1 => hm prk (hkdfSpecT hm prk info i ++ info ++ [(i + 1) % 256])

/-- The spec's description of the HKDF output: the first `length` bytes of
`T(1) || T(2) || ...`, taking as many 32-byte blocks as needed. -/
def hkdfSpecBytes (hm : List Nat → List Nat → List Nat) (ikm info salt : List Nat)
    (length : Nat) : List Nat :=
  let prk := hm salt ikm
  List.take length
    (((List.range ((length + 31) / 32)).map (fun i => hkdfSpecT hm prk info (i + 1))).flatten)

/-- The whitespace class stripped by the JS `String.prototype.trim` used in
`normalizePassphrase` (ECMAScript WhiteSpace and LineTerminator code
points). -/
def isJsWhitespace (c : Nat) : Bool :=
  c = 9 ∨ c = 10 ∨ c = 11 ∨ c = 12 ∨ c = 13 ∨ c = 32 ∨ c = 160 ∨ c = 5760 ∨
    (8192 ≤ c ∧ c ≤ 8202) ∨ c = 8232 ∨ c = 8233 ∨ c = 8239 ∨ c = 8287 ∨
    c = 12288 ∨ c = 65279

/-- JS `trim()`: drop leading whitespace, then drop trailing whitespace. -/
def jsTrim (s : List Nat) : List Nat :=
  ((s.dropWhile isJsWhitespace).reverse.dropWhile isJsWhitespace).reverse

/-- Core `normalizePassphrase`:
`passphrase.normalize('NFKD').toLowerCase().trim()`.  The Unicode NFKD
decomposition (`nfkd`) and full lowercase mapping (`toLower`) are JS
built-ins and enter as parameters; the trim step is embedded. -/
def normalizePassphrase (nfkd toLower : List Nat → List Nat) (passphrase : List Nat) :
    List Nat :=
  jsTrim (toLower (nfkd passphrase))

/-- The `algorithm` discriminator of core `deriveMasterKey`; `unsupported`
stands for any identifier other than the two written in the source. -/
inductive KdfAlgorithm where
  | argon2id
  | scrypt
  | unsupported
deriving DecidableEq, Repr

/-- The numeric fields that core `deriveMasterKey` reads from
`_opts.params` (both spellings of each parameter). -/
structure ArgonParams where
  memory_cost : Option Int
  memorySize : Option Int
  time_cost : Option Int
  iterations : Option Int
  parallelism : Option Int
  hash_len : Option Int
  hashLength : Option Int
deriving DecidableEq, Repr

/-- Core `KdfParams`: algorithm, optional numeric params, optional salt. -/
structure KdfOpts where
  algorithm : KdfAlgorithm
  params : ArgonParams
  salt : Option (List Nat)
deriving DecidableEq, Repr

/-- The argument record with which core `deriveMasterKey` invokes the
external `argon2id` primitive of hash-wasm. -/
structure Argon2Invocation where
  password : List Nat
  salt : List Nat
  parallelism : Int
  iterations : Int
  memorySize : Int
  hashLength : Int
deriving DecidableEq, Repr

/-- Core `deriveMasterKey`: normalize the passphrase, default the salt to 16
zero bytes, then dispatch on the algorithm.  The `argon2id` branch defaults
each numeric parameter (`a ?? b ?? default`) and hands them, unchanged, to
the external primitive — modelled by returning the invocation record.  The
`scrypt` branch and unknown algorithms throw. -/
def deriveMasterKey (nfkd toLower : List Nat → List Nat) (passphraseRaw : List Nat)
    (opts : KdfOpts) : Except SeedidError Argon2Invocation :=
  let passphrase := normalizePassphrase nfkd toLower passphraseRaw
  let saltBytes := opts.salt.getD (List.replicate 16 0)
  match opts.algorithm with
  | KdfAlgorithm.argon2id =>
    let m := ((opts.params.memory_cost).orElse (fun _ => opts.params.memorySize)).getD 262144
    let t := ((opts.params.time_cost).orElse (fun _ => opts.params.iterations)).getD 5
    let p := (opts.params.parallelism).getD 2
    let L := ((opts.params.hash_len).orElse (fun _ => opts.params.hashLength)).getD 32
    Except.ok ⟨passphrase, saltBytes, p, t, m, L⟩
  | KdfAlgorithm.scrypt => Except.error SeedidError.validation
  | KdfAlgorithm.unsupported => Except.error SeedidError.validation

/-- The `curve` argument of core `forDidKey`. -/
inductive DidKeyCurve where
  | ed25519
  | secp256k1
deriving DecidableEq, Repr

/-- The `chain` argument of core `forWallet` and wallets `deriveWalletRoot`. -/
inductive WalletChain where
  | eth
  | btc
  | sol
deriving DecidableEq, Repr

/-- Core `forNostr(master)`: `hkdf(master, LABEL_NOSTR_KEY, { salt, 32 })`,
with no check on `master`. -/
def forNostr (hm : List Nat → List Nat → List Nat) (master : List Nat) :
    Except SeedidError (List Nat) :=
  hkdf hm master LABEL_NOSTR_KEY HKDF_SALT 32

/-- Core `forDidKey(master, curve)`: pick the label, call `hkdf`. -/
def forDidKey (hm : List Nat → List Nat → List Nat) (master : List Nat)
    (curve : DidKeyCurve) : Except SeedidError (List Nat) :=
  match curve with
  | DidKeyCurve.ed25519 => hkdf hm master LABEL_DID_KEY_ED25519 HKDF_SALT 32
  | DidKeyCurve.secp256k1 => hkdf hm master LABEL_DID_KEY_SECP256K1 HKDF_SALT 32

/-- Core `forWallet(master, chain)`: switch on the chain, call `hkdf`. -/
def forWallet (hm : List Nat → List Nat → List Nat) (master : List Nat)
    (chain : WalletChain) : Except SeedidError (List Nat) :=
  match chain with
  | WalletChain.eth => hkdf hm master LABEL_WALLET_ETH HKDF_SALT 32
  | WalletChain.btc => hkdf hm master LABEL_WALLET_BTC HKDF_SALT 32
  | WalletChain.sol => hkdf hm master LABEL_WALLET_SOL HKDF_SALT 32

/-- Wallets SDK `deriveWalletRoot(master, chain)`: rejects a master key that
is not exactly 32 bytes, then delegates to `forWallet` (the chain-identifier
check of the source is made exhaustive by the `WalletChain` type). -/
def deriveWalletRoot (hm : List Nat → List Nat → List Nat) (master : List Nat)
    (chain : WalletChain) : Except SeedidError (List Nat) :=
  if master.length ≠ 32 then Except.error SeedidError.validation
  else forWallet hm master chain

/-- The result of scure-BIP32 `HDKey.fromMasterSeed(seed).derive(path)`:
optional private and public key, as read by the wallet modules.  The HD
derivation itself is an external library and enters as a parameter
`hd : seed → path → HDNode`. -/
structure HDNode where
  privateKey : Option (List Nat)
  publicKey : Option (List Nat)
deriving DecidableEq, Repr

/-- Wallets `WalletAccount`: the non-secret output `{ address, publicKey }`. -/
structure WalletAccount where
  address : List Nat
  publicKey : List Nat
deriving DecidableEq, Repr

/-- Wallets `SigningKey`: `{ privateKey, publicKey, address }`. -/
structure SigningKey where
  privateKey : List Nat
  publicKey : List Nat
  address : List Nat
deriving DecidableEq, Repr

/-- Decimal digit codes of a natural number, as produced by the JS template
interpolation `${index}` for a non-negative integer index. -/
def natDecimalCodesAux : Nat → Nat → List Nat → List Nat
  | 0, _, acc => acc
  | fuel + 1, n, acc =>
    if n < 10 then (48 + n) :: acc
    else natDecimalCodesAux fuel (n / 10) ((48 + n % 10) :: acc)

/-- Decimal rendering of `n` (code units of its usual base-10 form). -/
def natDecimalCodes (n : Nat) : List Nat :=
  natDecimalCodesAux (n + 1) n []

/-- Code units of the fixed prefix of the ETH BIP44 path
`m/44'/60'/0'/0/` built in `deriveEthAddress` / `deriveEthSigningKey`. -/
def ethPathBase : List Nat := [109, 47, 52, 52, 39, 47, 54, 48, 39, 47, 48, 39, 47, 48, 47]

/-- Code units of the fixed prefix of the BTC BIP84 path `m/84'/0'/0'/0/`. -/
def btcPathBase : List Nat := [109, 47, 56, 52, 39, 47, 48, 39, 47, 48, 39, 47, 48, 47]

/-- The ETH/BTC path template string for a given account index. -/
def hdPathFor (base : List Nat) (index : Nat) : List Nat :=
  base ++ natDecimalCodes index

/-- JS `toLowerCase` restricted to the ASCII range, which is all the
checksum code ever feeds it (hex digits and the `0x` prefix). -/
def jsToLowerCode (c : Nat) : Nat :=
  if 65 ≤ c ∧ c ≤ 90 then c + 32 else c

/-- JS `toUpperCase` on a single ASCII character, as used on hex digits. -/
def asciiUpperCode (c : Nat) : Nat :=
  if 97 ≤ c ∧ c ≤ 122 then c - 32 else c

/-- A lowercase hexadecimal digit code: `0`-`9` or `a`-`f`. -/
def isLowerHexCode (c : Nat) : Bool :=
  (48 ≤ c ∧ c ≤ 57) ∨ (97 ≤ c ∧ c ≤ 102)

/-- The lowercase hex digit for a value below 16, as produced by JS
`Number.prototype.toString(16)`. -/
def hexDigitCode (n : Nat) : Nat :=
  if n < 10 then 48 + n else 87 + n

/-- `b.toString(16).padStart(2, '0')` for a byte value: exactly two
lowercase hex digit codes. -/
def byteHexCodes (b : Nat) : List Nat :=
  [hexDigitCode ((b / 16) % 16), hexDigitCode (b % 16)]

/-- The hex-rendering loop of the wallet modules
(`addressHex += addressBytes[i].toString(16).padStart(2, '0')`). -/
def bytesToHexCodes (bs : List Nat) : List Nat :=
  (bs.map byteHexCodes).flatten

/-- JS `array.slice(-n)`: the last `n` elements (the whole array when it is
shorter than `n`), used for `hash.slice(-20)`. -/
def jsSliceLastN (n : Nat) (l : List Nat) : List Nat :=
  l.drop (l.length - n)

/-- JS `string.replace('0x', '')`: delete the first occurrence of the two
code units `0x`, leave everything else in place. -/
def replace0xOnce : List Nat → List Nat
  | [] => []
  | [c] => [c]
  | c1 :: c2 :: rest =>
    if c1 = 48 ∧ c2 = 120 then rest
    else c1 :: replace0xOnce (c2 :: rest)

/-- The character loop of `toChecksumAddress`: position `i` is uppercased
iff nibble `i` of the Keccak digest (`hash[i >> 1] >> (i even ? 4 : 0) & 0x0f`)
is at least 8; a missing digest byte reads as `undefined`, which the JS
shift coerces to 0. -/
def checksumMap (hash : List Nat) : Nat → List Nat → List Nat
  | _, [] => []
  | i, c :: rest =>
    (if 8 ≤ (hash.getD (i / 2) 0) >>> (if i % 2 = 0 then 4 else 0) &&& 15
     then asciiUpperCode c else c) :: checksumMap hash (i + 1) rest

/-- Wallets `toChecksumAddress(address)`: lowercase, strip `0x`, hash the
remaining characters with Keccak-256 (external, parameter `keccak` over the
UTF-8 bytes, which equal the code units on this ASCII input), and rebuild
`0x` followed by the mixed-case hex characters. -/
def toChecksumAddress (keccak : List Nat → List Nat) (address : List Nat) : List Nat :=
  let addr := replace0xOnce (address.map jsToLowerCode)
  let hash := keccak addr
  48 :: 120 :: checksumMap hash 0 addr

/-- Wallets `deriveEthAddress(root, index)`: validate the root length and
index sign, derive `m/44'/60'/0'/0/{index}` with the external HD library
(`hd`), decompress the public key (external secp256k1 `Point`, parameter
`pd`), Keccak-hash the 64-byte body, keep the last 20 bytes, hex them and
checksum them. -/
def deriveEthAddress (hd : List Nat → List Nat → HDNode)
    (pd keccak : List Nat → List Nat) (root : List Nat) (index : Int) :
    Except SeedidError WalletAccount :=
  if root.length ≠ 32 then Except.error SeedidError.validation
  else if index < 0 then Except.error SeedidError.validation
  else
    let derived := hd root (hdPathFor ethPathBase index.toNat)
    match derived.publicKey with
    | none => Except.error SeedidError.computation
    | some pub =>
      let uncompressed := pd pub
      let pubkey := uncompressed.drop 1
      let hash := keccak pubkey
      let addressBytes := jsSliceLastN 20 hash
      let address := toChecksumAddress keccak ([48, 120] ++ bytesToHexCodes addressBytes)
      Except.ok ⟨address, pub⟩

/-- Wallets `deriveEthSigningKey(root, index)`: same pipeline as
`deriveEthAddress` but requiring the private key as well. -/
def deriveEthSigningKey (hd : List Nat → List Nat → HDNode)
    (pd keccak : List Nat → List Nat) (root : List Nat) (index : Int) :
    Except SeedidError SigningKey :=
  if root.length ≠ 32 then Except.error SeedidError.validation
  else if index < 0 then Except.error SeedidError.validation
  else
    let derived := hd root (hdPathFor ethPathBase index.toNat)
    match derived.privateKey, derived.publicKey with
    | some priv, some pub =>
      let uncompressed := pd pub
      let pubkey := uncompressed.drop 1
      let hash := keccak pubkey
      let addressBytes := jsSliceLastN 20 hash
      let address := toChecksumAddress keccak ([48, 120] ++ bytesToHexCodes addressBytes)
      Except.ok ⟨priv, pub, address⟩
    | _, _ => Except.error SeedidError.computation

/-- Wallets `hash160(data)`: RIPEMD-160 of SHA-256 (both external noble
primitives, parameters). -/
def hash160 (sha256 ripemd160 : List Nat → List Nat) (data : List Nat) : List Nat :=
  ripemd160 (sha256 data)

/-- Code units of the human-readable part `bc`. -/
def HRP_BC : List Nat := [98, 99]

/-- Wallets `encodeBech32(version, program, hrp)`: convert the program to
5-bit words (external `bech32.toWords`, parameter `toWords`), prepend the
witness version, and encode with bech32 for version 0 and bech32m otherwise
(external `bech32.encode`, parameter `b32enc`; its Bool argument is `true`
for the bech32 variant). -/
def encodeBech32 (toWords : List Nat → List Nat)
    (b32enc : List Nat → List Nat → Bool → List Nat)
    (version : Nat) (program : List Nat) (hrp : List Nat) : List Nat :=
  let words := toWords program
  let data := version :: words
  b32enc hrp data (version = 0)

/-- Wallets `deriveBtcAddress(root, index)` (current, SegWit-only version):
validate, derive `m/84'/0'/0'/0/{index}`, and Bech32-encode witness
version 0 over `hash160` of the compressed public key. -/
def deriveBtcAddress (hd : List Nat → List Nat → HDNode)
    (sha256 ripemd160 : List Nat → List Nat) (toWords : List Nat → List Nat)
    (b32enc : List Nat → List Nat → Bool → List Nat)
    (root : List Nat) (index : Int) : Except SeedidError WalletAccount :=
  if root.length ≠ 32 then Except.error SeedidError.validation
  else if index < 0 then Except.error SeedidError.validation
  else
    let derived := hd root (hdPathFor btcPathBase index.toNat)
    match derived.publicKey with
    | none => Except.error SeedidError.computation
    | some pub =>
      let witnessProgram := hash160 sha256 ripemd160 pub
      Except.ok ⟨encodeBech32 toWords b32enc 0 witnessProgram HRP_BC, pub⟩

/-- Wallets `deriveBtcSigningKey(root, index)`: same pipeline, also
requiring the private key. -/
def deriveBtcSigningKey (hd : List Nat → List Nat → HDNode)
    (sha256 ripemd160 : List Nat → List Nat) (toWords : List Nat → List Nat)
    (b32enc : List Nat → List Nat → Bool → List Nat)
    (root : List Nat) (index : Int) : Except SeedidError SigningKey :=
  if root.length ≠ 32 then Except.error SeedidError.validation
  else if index < 0 then Except.error SeedidError.validation
  else
    let derived := hd root (hdPathFor btcPathBase index.toNat)
    match derived.privateKey, derived.publicKey with
    | some priv, some pub =>
      let witnessProgram := hash160 sha256 ripemd160 pub
      Except.ok ⟨priv, pub, encodeBech32 toWords b32enc 0 witnessProgram HRP_BC⟩
    | _, _ => Except.error SeedidError.computation

/-- The 4 big-endian bytes that `DataView.setUint32(0, index, false)`
writes for a non-negative integer index (wrapping modulo 2^32). -/
def beUint32Bytes (index : Nat) : List Nat :=
  let n := index % 4294967296
  [(n / 16777216) % 256, (n / 65536) % 256, (n / 256) % 256, n % 256]

/-- Wallets `deriveSolSeed(root, index)`: the root itself at index 0,
otherwise the first 32 bytes of SHA-512 (external, parameter `sha512`) of
`root || big-endian-uint32(index)`. -/
def deriveSolSeed (sha512 : List Nat → List Nat) (root : List Nat) (index : Nat) :
    List Nat :=
  if index = 0 then root
  else (sha512 (root ++ beUint32Bytes index)).take 32

/-- Wallets `deriveSolAddress(root, index)` (direct, non-SLIP-10 variant):
validate, derive the Ed25519 seed, use it directly as the private key, take
the Ed25519 public key (external, parameter `edPub`) and Base58-encode it
(external, parameter `b58enc`). -/
def deriveSolAddress (sha512 edPub b58enc : List Nat → List Nat)
    (root : List Nat) (index : Int) : Except SeedidError WalletAccount :=
  if root.length ≠ 32 then Except.error SeedidError.validation
  else if index < 0 then Except.error SeedidError.validation
  else
    let seed := deriveSolSeed sha512 root index.toNat
    let publicKey := edPub seed
    Except.ok ⟨b58enc publicKey, publicKey⟩

/-- Wallets `deriveSolSigningKey(root, index)`: same pipeline, returning
the seed as the private key. -/
def deriveSolSigningKey (sha512 edPub b58enc : List Nat → List Nat)
    (root : List Nat) (index : Int) : Except SeedidError SigningKey :=
  if root.length ≠ 32 then Except.error SeedidError.validation
  else if index < 0 then Except.error SeedidError.validation
  else
    let seed := deriveSolSeed sha512 root index.toNat
    let publicKey := edPub seed
    Except.ok ⟨seed, publicKey, b58enc publicKey⟩

/-- JS `string.split('/')` for a single-character separator: always at
least one (possibly empty) group. -/
def jsSplit (sep : Nat) : List Nat → List (List Nat)
  | [] => [[]]
  | c :: rest =>
    match jsSplit sep rest with
    | [] => [[]]
    | g :: gs => if c = sep then [] :: g :: gs else (c :: g) :: gs

/-- One segment of `parseSlip10Path`: must end with an apostrophe (code
39), the rest must be one or more decimal digits; the numeric value is
or-ed with the hardened bit through the JS 32-bit coercion
`(num | 0x80000000) >>> 0`, i.e. `(num mod 2^32) ||| 2^31`.  (The source's
follow-up `Number.isInteger(num) || num < 0` check can never fire for a
digit string and is dropped as dead code; JS float rounding of digit
strings beyond 2^53 is not modelled, it cannot clear the hardened bit.) -/
def parseSeg (seg : List Nat) : Except SeedidError Nat :=
  if seg.getLast? = some 39 then
    let numStr := seg.dropLast
    if numStr.length ≠ 0 ∧ numStr.all (fun c => decide (48 ≤ c ∧ c ≤ 57)) then
      let num := numStr.foldl (fun acc c => acc * 10 + (c - 48)) 0
      Except.ok ((num % 4294967296) ||| 2147483648)
    else Except.error SeedidError.validation
  else Except.error SeedidError.validation

/-- The segment loop of `parseSlip10Path`, first failure wins. -/
def parseSegs : List (List Nat) → Except SeedidError (List Nat)
  | [] => Except.ok []
  | seg :: rest =>
    match parseSeg seg with
    | Except.error e => Except.error e
    | Except.ok x =>
      match parseSegs rest with
      | Except.error e => Except.error e
      | Except.ok xs => Except.ok (x :: xs)

/-- Wallets `parseSlip10Path(path)`: non-empty, must start with `m/`, then
every `/`-separated segment is parsed hardened-only. -/
def parseSlip10Path (path : List Nat) : Except SeedidError (List Nat) :=
  if path.length = 0 then Except.error SeedidError.validation
  else if path.take 2 ≠ [109, 47] then Except.error SeedidError.validation
  else
    let segments := jsSplit 47 (path.drop 2)
    if segments.length = 0 then Except.ok []
    else parseSegs segments

/-- `true` iff every derived child index has the hardened bit 31 set. -/
def allHardened (l : List Nat) : Bool :=
  l.all (fun x => x.testBit 31)

/-- ASCII bytes of the SLIP-10 master HMAC key `ed25519 seed`. -/
def ED25519_SEED_KEY : List Nat := [101, 100, 50, 53, 53, 49, 57, 32, 115, 101, 101, 100]

/-- `ser32` big-endian of an already-32-bit index, as assembled byte by
byte in `deriveSlip10Ed25519`. -/
def ser32be (idx : Nat) : List Nat :=
  [(idx >>> 24) &&& 255, (idx >>> 16) &&& 255, (idx >>> 8) &&& 255, idx &&& 255]

/-- Wallets `deriveSlip10Ed25519(seed, path)`: master node
`I = HMAC-SHA512("ed25519 seed", seed)` split into (key, chainCode), then a
hardened step `I = HMAC-SHA512(chainCode, 0x00 || key || ser32(idx))` per
path element (HMAC-SHA512 external, parameter `hm512`). -/
def deriveSlip10Ed25519 (hm512 : List Nat → List Nat → List Nat)
    (seed : List Nat) (path : List Nat) : Except SeedidError (List Nat × List Nat) :=
  if seed.length = 0 then Except.error SeedidError.validation
  else
    let I0 := hm512 ED25519_SEED_KEY seed
    Except.ok (path.foldl
      (fun kc idx =>
        let I2 := hm512 kc.2 (0 :: kc.1 ++ ser32be idx)
        (I2.take 32, I2.drop 32))
      (I0.take 32, I0.drop 32))

/-- The path presets of the SLIP-10 SOL module. -/
inductive SolPreset where
  | phantom
  | solflare
  | custom
deriving DecidableEq, Repr

/-- `SolDerivationOptions` of the SLIP-10 SOL module. -/
structure SolDerivationOptions where
  index : Option Int
  preset : Option SolPreset
  path : Option (List Nat)
deriving DecidableEq, Repr

/-- `phantomPath(index)`: code units of `m/44'/501'/{index}'/0'`. -/
def phantomPath (index : Nat) : List Nat :=
  [109, 47, 52, 52, 39, 47, 53, 48, 49, 39, 47] ++ natDecimalCodes index ++ [39, 47, 48, 39]

/-- `solflarePath(index)`: code units of `m/44'/501'/{index}'`. -/
def solflarePath (index : Nat) : List Nat :=
  [109, 47, 52, 52, 39, 47, 53, 48, 49, 39, 47] ++ natDecimalCodes index ++ [39]

/-- `buildPath(opts)`: default index 0 and preset phantom; reject a
negative index; the custom preset requires an explicit path. -/
def buildPath (opts : Option SolDerivationOptions) : Except SeedidError (List Nat) :=
  let index := (opts.bind (fun o => o.index)).getD 0
  let preset := (opts.bind (fun o => o.preset)).getD SolPreset.phantom
  if index < 0 then Except.error SeedidError.validation
  else
    match preset with
    | SolPreset.phantom => Except.ok (phantomPath index.toNat)
    | SolPreset.solflare => Except.ok (solflarePath index.toNat)
    | SolPreset.custom =>
      match opts.bind (fun o => o.path) with
      | none => Except.error SeedidError.validation
      | some p => Except.ok p

/-- Wallets `deriveSolAddressSlip10(root, opts)`: validate the root, build
and parse the (hardened-only) path, fold the SLIP-10 steps, then take the
Ed25519 public key and Base58-encode it. -/
def deriveSolAddressSlip10 (hm512 : List Nat → List Nat → List Nat)
    (edPub b58enc : List Nat → List Nat) (root : List Nat)
    (opts : Option SolDerivationOptions) : Except SeedidError WalletAccount :=
  if root.length ≠ 32 then Except.error SeedidError.validation
  else
    match buildPath opts with
    | Except.error e => Except.error e
    | Except.ok pathStr =>
      match parseSlip10Path pathStr with
      | Except.error e => Except.error e
      | Except.ok path =>
        match deriveSlip10Ed25519 hm512 root path with
        | Except.error e => Except.error e
        | Except.ok kc =>
          let publicKey := edPub kc.1
          Except.ok ⟨b58enc publicKey, publicKey⟩

/-- Identity code-unit map: concrete stand-in for the external NFKD and
lowercase built-ins in witnesses. -/
def idCodes : List Nat → List Nat := fun l => l

/-- Concrete 32-byte-output stand-in for HMAC-SHA256 in witnesses. -/
def constHmac32 : List Nat → List Nat → List Nat := fun _ _ => List.replicate 32 0

/-- A second, different concrete HMAC stand-in for independence checks. -/
def idHmac : List Nat → List Nat → List Nat := fun k d => k ++ d

/-- Concrete varied 32-byte stand-in for HMAC-SHA256 in witnesses. -/
def testHmac32 : List Nat → List Nat → List Nat :=
  fun k d => (List.range 32).map (fun i => (i + 3 * k.length + 7 * d.length) % 256)

/-- Concrete HD-derivation stand-in: a node with both keys present. -/
def testHd : List Nat → List Nat → HDNode :=
  fun _ _ => ⟨some (List.replicate 32 1), some (List.replicate 33 2)⟩

/-- Concrete point-decompression stand-in: a 65-byte uncompressed key. -/
def testPd : List Nat → List Nat := fun _ => List.replicate 65 3

/-- Concrete varied Keccak-256 stand-in. -/
def testKeccak : List Nat → List Nat :=
  fun l => (List.range 32).map (fun i => (37 * i + 11 * l.length) % 256)

/-- Concrete SHA-512 stand-in (64 bytes). -/
def testSha : List Nat → List Nat :=
  fun l => (List.range 64).map (fun i => (i + 5 * l.length) % 256)

/-- Concrete SHA-256 / RIPEMD-160 stand-ins. -/
def testSha256 : List Nat → List Nat :=
  fun l => (List.range 32).map (fun i => (2 * i + l.length) % 256)

/-- Concrete RIPEMD-160 stand-in (20 bytes). -/
def testRipemd : List Nat → List Nat :=
  fun l => (List.range 20).map (fun i => (3 * i + l.length) % 256)

/-- Concrete Base58-encoder stand-in. -/
def testB58 : List Nat → List Nat := fun l => 90 :: l

/-- Concrete bech32 `toWords` stand-in. -/
def testWords : List Nat → List Nat := fun l => l.map (fun c => c % 32)

/-- Concrete bech32 encoder stand-in. -/
def testB32enc : List Nat → List Nat → Bool → List Nat :=
  fun hrp data _ => hrp ++ data

/-- Concrete Ed25519 public-key stand-in. -/
def testEdPub : List Nat → List Nat := fun l => 4 :: l.reverse

/-- Concrete HMAC-SHA512 stand-in (64 bytes). -/
def testHmac512 : List Nat → List Nat → List Nat :=
  fun k d => (List.range 64).map (fun i => (i + 9 * k.length + d.length) % 256)

/-- Extract the success value of a signing-key derivation (empty record on
error); used to state concrete evaluations. -/
def exOkSk (e : Except SeedidError SigningKey) : SigningKey :=
  match e with
  | Except.ok v => v
  | Except.error _ => ⟨[], [], []⟩

/-- Extract the success value of an address derivation (empty record on
error); used to state concrete evaluations. -/
def exOkWa (e : Except SeedidError WalletAccount) : WalletAccount :=
  match e with
  | Except.ok v => v
  | Except.error _ => ⟨[], []⟩

theorem jsTrim_eq_rdrop (s : List Nat) :
    jsTrim s = (s.dropWhile isJsWhitespace).rdropWhile isJsWhitespace := rfl

theorem dropWhile_rdrop_self (p : Nat → Bool) (s : List Nat) :
    ((s.dropWhile p).rdropWhile p).dropWhile p = (s.dropWhile p).rdropWhile p := by
  rw [List.dropWhile_eq_self_iff]
  intro hl
  have hpre : (s.dropWhile p).rdropWhile p <+: s.dropWhile p := List.rdropWhile_prefix p _
  have hlen : 0 < (s.dropWhile p).length := lt_of_lt_of_le hl hpre.length_le
  have h0 : ((s.dropWhile p).rdropWhile p).get ⟨0, hl⟩ = (s.dropWhile p).get ⟨0, hlen⟩ := by
    simpa using List.IsPrefix.getElem hpre hl
  rw [h0]
  exact List.dropWhile_get_zero_not p s hlen

theorem jsTrim_idempotent (s : List Nat) : jsTrim (jsTrim s) = jsTrim s := by
  rw [jsTrim_eq_rdrop (jsTrim s), jsTrim_eq_rdrop s, dropWhile_rdrop_self,
    List.rdropWhile_idempotent, ← jsTrim_eq_rdrop]

theorem jsTrim_eq_nil_iff (s : List Nat) :
    jsTrim s = [] ↔ s.all isJsWhitespace = true := by
  rw [jsTrim_eq_rdrop, List.rdropWhile_eq_nil_iff, List.all_eq_true]
  constructor
  · intro h x hx
    have hsplit : s.takeWhile isJsWhitespace ++ s.dropWhile isJsWhitespace = s :=
      List.takeWhile_append_dropWhile isJsWhitespace s
    rw [← hsplit] at hx
    rcases List.mem_append.mp hx with hx1 | hx2
    · exact List.mem_takeWhile_imp hx1
    · exact h x hx2
  · intro h x hx
    exact h x ((List.dropWhile_suffix isJsWhitespace).sublist.subset hx)

/-- Claim C9: normalization (NFKD decomposition, then lowercase, then trim)
is idempotent.  The external Unicode built-ins enter as the parameters
`nfkd` and `toLower`; the hypotheses record the standard Unicode facts that
a normalized, lowercased, trimmed string is NFKD-stable (NFKD is closed
under taking substrings) and lowercase-stable (lowercasing is idempotent);
the trim component is proved idempotent outright. -/
theorem normalizePassphrase_idempotent (nfkd toLower : List Nat → List Nat) (s : List Nat)
    (hN : nfkd (normalizePassphrase nfkd toLower s) = normalizePassphrase nfkd toLower s)
    (hL : toLower (normalizePassphrase nfkd toLower s) = normalizePassphrase nfkd toLower s) :
    normalizePassphrase nfkd toLower (normalizePassphrase nfkd toLower s) =
      normalizePassphrase nfkd toLower s := by
  unfold normalizePassphrase at hN hL ⊢
  rw [hN, hL]
  exact jsTrim_idempotent _

theorem normalizePassphrase_idempotent_witness :
    normalizePassphrase idCodes idCodes (normalizePassphrase idCodes idCodes [32, 65, 32]) =
      normalizePassphrase idCodes idCodes [32, 65, 32] :=
  normalizePassphrase_idempotent idCodes idCodes [32, 65, 32] (by decide) (by decide)

/-- Claim C2 (amended): `normalizePassphrase` never raises; it returns the
empty string exactly when every character of the lowercased NFKD
decomposition is whitespace.  (The source has no emptiness check and no
throw: the claimed `ValidationError` does not exist.) -/
theorem normalizePassphrase_empty_iff (nfkd toLower : List Nat → List Nat) (s : List Nat) :
    normalizePassphrase nfkd toLower s = [] ↔
      (toLower (nfkd s)).all isJsWhitespace = true :=
  jsTrim_eq_nil_iff (toLower (nfkd s))

/-- Claim C2, counterexample: on input whose normalization result is empty
(two spaces), `normalizePassphrase` returns the empty string; the function
is total and raises nothing. -/
theorem normalizePassphrase_returns_empty_cex :
    normalizePassphrase idCodes idCodes [32, 32] = [] := by decide

/-- Claim C8: `hkdf` rejects a requested length of 0 or less, or above
8160 = 255·32, with a `ValidationError`, and does so without consulting the
HMAC primitive (the result is the same for any two primitives); for lengths
in 1..8160 the bounds check never fires and the call succeeds. -/
theorem hkdf_length_bounds (hm hm2 : List Nat → List Nat → List Nat)
    (ikm info salt : List Nat) (length : Int) :
    ((length ≤ 0 ∨ 8160 < length) →
      hkdf hm ikm info salt length = Except.error SeedidError.validation ∧
      hkdf hm ikm info salt length = hkdf hm2 ikm info salt length) ∧
    (1 ≤ length → length ≤ 8160 → isOkE (hkdf hm ikm info salt length) = true) := by
  constructor
  · intro h
    have hcond : length ≤ 0 ∨ (MAX_HKDF_LEN : Int) < length := by
      simp only [MAX_HKDF_LEN]; omega
    constructor
    · simp [hkdf, hcond]
    · simp [hkdf, hcond]
  · intro h1 h2
    have hcond : ¬(length ≤ 0 ∨ (MAX_HKDF_LEN : Int) < length) := by
      simp only [MAX_HKDF_LEN]; omega
    simp [hkdf, hcond, isOkE]

theorem hkdf_length_bounds_witness :
    (hkdf constHmac32 [1] [2] [3] 0 = Except.error SeedidError.validation ∧
      hkdf constHmac32 [1] [2] [3] 0 = hkdf idHmac [1] [2] [3] 0) ∧
    hkdf constHmac32 [1] [2] [3] 9000 = Except.error SeedidError.validation ∧
    isOkE (hkdf constHmac32 [1] [2] [3] 32) = true :=
  ⟨(hkdf_length_bounds constHmac32 idHmac [1] [2] [3] 0).1 (Or.inl (by decide)),
   ((hkdf_length_bounds constHmac32 idHmac [1] [2] [3] 9000).1 (Or.inr (by decide))).1,
   (hkdf_length_bounds constHmac32 idHmac [1] [2] [3] 32).2 (by decide) (by decide)⟩

/-- Claim C3, counterexample: `deriveMasterKey` with zero memory cost, a
negative time cost, zero parallelism and zero hash length does not raise: it
reaches the Argon2id primitive with those values unchanged. -/
theorem deriveMasterKey_unvalidated_params_cex :
    deriveMasterKey idCodes idCodes [97]
      ⟨KdfAlgorithm.argon2id, ⟨some 0, none, some (-3), none, some 0, some 0, none⟩, none⟩ =
      Except.ok ⟨[97], List.replicate 16 0, 0, -3, 0, 0⟩ := by rfl

/-- Claim C3 (amended): `deriveMasterKey` performs no validation of the
numeric Argon2id parameters — whatever value (zero, negative, anything)
stands in `memory_cost` is handed to the primitive as `memorySize` — and
the only identifier checks are that `scrypt` and unknown algorithms are
rejected. -/
theorem deriveMasterKey_argon2id_no_param_validation (nfkd toLower : List Nat → List Nat)
    (pass : List Nat) (ps : ArgonParams) (so : Option (List Nat)) (m : Int)
    (hmem : ps.memory_cost = some m) :
    (∃ inv, deriveMasterKey nfkd toLower pass ⟨KdfAlgorithm.argon2id, ps, so⟩ =
        Except.ok inv ∧ inv.memorySize = m) ∧
    deriveMasterKey nfkd toLower pass ⟨KdfAlgorithm.scrypt, ps, so⟩ =
      Except.error SeedidError.validation := by
  constructor
  · refine ⟨_, rfl, ?_⟩
    simp [deriveMasterKey, hmem, Option.orElse]
  · rfl

theorem deriveMasterKey_argon2id_no_param_validation_witness :
    (∃ inv, deriveMasterKey idCodes idCodes [97]
        ⟨KdfAlgorithm.argon2id, ⟨some 0, none, none, none, none, none, none⟩, none⟩ =
        Except.ok inv ∧ inv.memorySize = 0) ∧
    deriveMasterKey idCodes idCodes [97]
        ⟨KdfAlgorithm.scrypt, ⟨some 0, none, none, none, none, none, none⟩, none⟩ =
      Except.error SeedidError.validation :=
  deriveMasterKey_argon2id_no_param_validation idCodes idCodes [97]
    ⟨some 0, none, none, none, none, none, none⟩ none 0 rfl

/-- Claim C1, counterexample: the core helper `forNostr` on a 31-byte
master performs no length validation and succeeds (returns the HKDF
output), rather than raising a `ValidationError`. -/
theorem forNostr_short_master_cex :
    isOkE (forNostr constHmac32 (List.replicate 31 0)) = true := by decide

/-- Claim C1 (amended): the core namespace helpers `forNostr`, `forDidKey`
and `forWallet` perform no validation of the master key at all — they
return `hkdf(master, label, fixedSalt, 32)` for a master of any length and
never raise — while the 32-byte master check lives one layer up, in the
wallets SDK `deriveWalletRoot`, which raises for a master of length ≠ 32
and otherwise delegates to `forWallet`. -/
theorem namespace_helpers_no_master_validation (hm : List Nat → List Nat → List Nat)
    (master : List Nat) (curve : DidKeyCurve) (chain : WalletChain) :
    isOkE (forNostr hm master) = true ∧
    isOkE (forDidKey hm master curve) = true ∧
    isOkE (forWallet hm master chain) = true ∧
    forNostr hm master = hkdf hm master LABEL_NOSTR_KEY HKDF_SALT 32 ∧
    (master.length ≠ 32 →
      deriveWalletRoot hm master chain = Except.error SeedidError.validation) ∧
    (master.length = 32 → deriveWalletRoot hm master chain = forWallet hm master chain) := by
  have hok : ∀ info : List Nat, isOkE (hkdf hm master info HKDF_SALT 32) = true := by
    intro info
    simp [hkdf, isOkE, MAX_HKDF_LEN]
  refine ⟨hok _, ?_, ?_, rfl, ?_, ?_⟩
  · cases curve <;> exact hok _
  · cases chain <;> exact hok _
  · intro h
    simp [deriveWalletRoot, h]
  · intro h
    simp [deriveWalletRoot, h]

theorem namespace_helpers_no_master_validation_witness :
    isOkE (forNostr constHmac32 (List.replicate 33 0)) = true ∧
    deriveWalletRoot constHmac32 (List.replicate 33 0) WalletChain.eth =
      Except.error SeedidError.validation ∧
    deriveWalletRoot constHmac32 (List.replicate 32 0) WalletChain.eth =
      forWallet constHmac32 (List.replicate 32 0) WalletChain.eth := by
  have h33 := namespace_helpers_no_master_validation constHmac32 (List.replicate 33 0)
    DidKeyCurve.ed25519 WalletChain.eth
  have h32 := namespace_helpers_no_master_validation constHmac32 (List.replicate 32 0)
    DidKeyCurve.ed25519 WalletChain.eth
  exact ⟨h33.1, h33.2.2.2.2.1 (by decide), h32.2.2.2.2.2 (by decide)⟩

/-- Claim C10: the direct (non-SLIP-10) SOL derivation uses the namespace
root itself as the Ed25519 private seed at index 0 — the returned
`privateKey` is byte-for-byte the root — and for a positive index it uses
the first 32 bytes of SHA-512 of `root || big-endian-uint32(index)`. -/
theorem deriveSolSigningKey_seed_selection (sha512 edPub b58enc : List Nat → List Nat)
    (root : List Nat) (h : root.length = 32) :
    deriveSolSigningKey sha512 edPub b58enc root 0 =
      Except.ok ⟨root, edPub root, b58enc (edPub root)⟩ ∧
    (∀ index : Int, 0 < index →
      deriveSolSigningKey sha512 edPub b58enc root index =
        Except.ok
          ⟨(sha512 (root ++ beUint32Bytes index.toNat)).take 32,
           edPub ((sha512 (root ++ beUint32Bytes index.toNat)).take 32),
           b58enc (edPub ((sha512 (root ++ beUint32Bytes index.toNat)).take 32))⟩) := by
  constructor
  · simp [deriveSolSigningKey, deriveSolSeed, h]
  · intro index hpos
    have hneg : ¬index < 0 := by omega
    have hne : index.toNat ≠ 0 := by omega
    simp [deriveSolSigningKey, deriveSolSeed, h, hneg, hne]

theorem deriveSolSigningKey_seed_selection_witness :
    deriveSolSigningKey testSha testEdPub testB58 (List.replicate 32 5) 0 =
      Except.ok ⟨List.replicate 32 5, testEdPub (List.replicate 32 5),
        testB58 (testEdPub (List.replicate 32 5))⟩ :=
  (deriveSolSigningKey_seed_selection testSha testEdPub testB58
    (List.replicate 32 5) (by decide)).1

theorem isOkE_eq_false {α : Type} (e : Except SeedidError α) :
    isOkE e = false ↔ ∃ err, e = Except.error err := by
  cases e <;> simp [isOkE]

theorem parseSeg_ok_characterization (seg : List Nat) (x : Nat)
    (h : parseSeg seg = Except.ok x) :
    seg.getLast? = some 39 ∧ x.testBit 31 = true := by
  unfold parseSeg at h
  by_cases h1 : seg.getLast? = some 39
  · rw [if_pos h1] at h
    refine ⟨h1, ?_⟩
    by_cases h2 : seg.dropLast.length ≠ 0 ∧
        (seg.dropLast.all fun c => decide (48 ≤ c ∧ c ≤ 57)) = true
    · rw [if_pos h2] at h
      simp only [Except.ok.injEq] at h
      subst h
      have hb : Nat.testBit 2147483648 31 = true := by decide
      simp [Nat.testBit_or, hb]
    · rw [if_neg h2] at h
      exact Except.noConfusion h
  · rw [if_neg h1] at h
    exact Except.noConfusion h

theorem parseSegs_ok_characterization : ∀ (segs : List (List Nat)) (out : List Nat),
    parseSegs segs = Except.ok out →
      (∀ seg ∈ segs, seg.getLast? = some 39) ∧ allHardened out = true := by
  intro segs
  induction segs with
  | nil =>
    intro out h
    simp only [parseSegs, Except.ok.injEq] at h
    subst h
    simp [allHardened]
  | cons seg rest ih =>
    intro out h
    cases hs : parseSeg seg with
    | error e =>
      simp only [parseSegs, hs] at h
      exact Except.noConfusion h
    | ok x =>
      cases hr : parseSegs rest with
      | error e =>
        simp only [parseSegs, hs, hr] at h
        exact Except.noConfusion h
      | ok xs =>
        simp only [parseSegs, hs, hr, Except.ok.injEq] at h
        subst h
        obtain ⟨hA, hH⟩ := ih xs hr
        obtain ⟨h39, hbit⟩ := parseSeg_ok_characterization seg x hs
        constructor
        · intro s hsmem
          rcases List.mem_cons.mp hsmem with hcase | hcase
          · exact hcase ▸ h39
          · exact hA s hcase
        · simp only [allHardened, List.all_cons, hbit, Bool.true_and]
          exact hH

theorem parseSlip10Path_ok_hardened (path : List Nat) (out : List Nat)
    (h : parseSlip10Path path = Except.ok out) :
    (∀ seg ∈ jsSplit 47 (path.drop 2), seg.getLast? = some 39) ∧
      allHardened out = true := by
  unfold parseSlip10Path at h
  by_cases g1 : path.length = 0
  · rw [if_pos g1] at h
    exact Except.noConfusion h
  · rw [if_neg g1] at h
    by_cases g2 : path.take 2 ≠ [109, 47]
    · rw [if_pos g2] at h
      exact Except.noConfusion h
    · rw [if_neg g2] at h
      dsimp only at h
      by_cases g3 : (jsSplit 47 (path.drop 2)).length = 0
      · rw [if_pos g3] at h
        simp only [Except.ok.injEq] at h
        subst h
        refine ⟨?_, by simp [allHardened]⟩
        intro s hsmem
        rw [List.length_eq_zero.mp g3] at hsmem
        exact absurd hsmem (List.not_mem_nil s)
      · rw [if_neg g3] at h
        exact parseSegs_ok_characterization _ out h

/-- Claim C5: every Ed25519-chain path segment must be flagged hardened —
a segment without the trailing apostrophe makes `parseSlip10Path` fail,
and `deriveSolAddressSlip10` on such a custom path fails before any
SLIP-10 derivation step (its result is an error for every choice of the
HMAC-SHA512 / Ed25519 / Base58 primitives and for every root and index) —
and every accepted path parses to indices with the hardened bit
`0x80000000` set. -/
theorem slip10_hardened_only (path : List Nat)
    (hm512 : List Nat → List Nat → List Nat) (edPub b58enc : List Nat → List Nat)
    (root : List Nat) (idx : Int) (out : List Nat) :
    ((∃ seg ∈ jsSplit 47 (path.drop 2), ¬seg.getLast? = some 39) →
      isOkE (parseSlip10Path path) = false ∧
      isOkE (deriveSolAddressSlip10 hm512 edPub b58enc root
        (some ⟨some idx, some SolPreset.custom, some path⟩)) = false) ∧
    (parseSlip10Path path = Except.ok out → allHardened out = true) := by
  constructor
  · intro hbad
    obtain ⟨badseg, hmem, hnoapos⟩ := hbad
    have hparse : isOkE (parseSlip10Path path) = false := by
      cases hp : parseSlip10Path path with
      | error e => simp [isOkE]
      | ok val =>
        exact absurd ((parseSlip10Path_ok_hardened path val hp).1 badseg hmem) hnoapos
    refine ⟨hparse, ?_⟩
    obtain ⟨err, herr⟩ := (isOkE_eq_false _).mp hparse
    cases hd : deriveSolAddressSlip10 hm512 edPub b58enc root
        (some ⟨some idx, some SolPreset.custom, some path⟩) with
    | error e => simp [isOkE]
    | ok val =>
      exfalso
      unfold deriveSolAddressSlip10 at hd
      by_cases g1 : root.length ≠ 32
      · rw [if_pos g1] at hd
        exact Except.noConfusion hd
      · rw [if_neg g1] at hd
        by_cases hidx : idx < 0
        · have hbuild : buildPath (some ⟨some idx, some SolPreset.custom, some path⟩) =
              Except.error SeedidError.validation := by
            simp [buildPath, hidx]
          simp only [hbuild] at hd
          exact Except.noConfusion hd
        · have hbuild : buildPath (some ⟨some idx, some SolPreset.custom, some path⟩) =
              Except.ok path := by
            simp [buildPath, hidx]
          simp only [hbuild, herr] at hd
          exact Except.noConfusion hd
  · exact fun h => (parseSlip10Path_ok_hardened path out h).2

theorem slip10_hardened_only_witness :
    (isOkE (parseSlip10Path [109, 47, 52, 52, 47, 48, 39]) = false ∧
      isOkE (deriveSolAddressSlip10 testHmac512 testEdPub testB58 (List.replicate 32 0)
        (some ⟨some 0, some SolPreset.custom, some [109, 47, 52, 52, 47, 48, 39]⟩)) = false) ∧
    allHardened [2147483692] = true := by
  refine ⟨(slip10_hardened_only [109, 47, 52, 52, 47, 48, 39] testHmac512 testEdPub testB58
      (List.replicate 32 0) 0 []).1 (by decide),
    (slip10_hardened_only [109, 47, 52, 52, 39] testHmac512 testEdPub testB58
      (List.replicate 32 0) 0 [2147483692]).2 (by rfl)⟩

theorem ethConsistency (hd : List Nat → List Nat → HDNode)
    (pd keccak : List Nat → List Nat) (root : List Nat) (index : Int)
    (sk : SigningKey) (wa : WalletAccount)
    (hs : deriveEthSigningKey hd pd keccak root index = Except.ok sk)
    (ha : deriveEthAddress hd pd keccak root index = Except.ok wa) :
    sk.address = wa.address ∧ sk.publicKey = wa.publicKey := by
  unfold deriveEthSigningKey at hs
  unfold deriveEthAddress at ha
  by_cases g1 : root.length ≠ 32
  · rw [if_pos g1] at hs
    exact Except.noConfusion hs
  · rw [if_neg g1] at hs
    rw [if_neg g1] at ha
    by_cases g2 : index < 0
    · rw [if_pos g2] at hs
      exact Except.noConfusion hs
    · rw [if_neg g2] at hs
      rw [if_neg g2] at ha
      dsimp only at hs ha
      cases hpriv : (hd root (hdPathFor ethPathBase index.toNat)).privateKey with
      | none =>
        simp only [hpriv] at hs
        exact Except.noConfusion hs
      | some priv =>
        cases hpub : (hd root (hdPathFor ethPathBase index.toNat)).publicKey with
        | none =>
          simp only [hpriv, hpub] at hs
          exact Except.noConfusion hs
        | some pub =>
          simp only [hpriv, hpub, Except.ok.injEq] at hs ha
          subst hs
          subst ha
          exact ⟨rfl, rfl⟩

theorem btcConsistency (hd : List Nat → List Nat → HDNode)
    (sha256 ripemd160 toWords : List Nat → List Nat)
    (b32enc : List Nat → List Nat → Bool → List Nat) (root : List Nat) (index : Int)
    (sk : SigningKey) (wa : WalletAccount)
    (hs : deriveBtcSigningKey hd sha256 ripemd160 toWords b32enc root index = Except.ok sk)
    (ha : deriveBtcAddress hd sha256 ripemd160 toWords b32enc root index = Except.ok wa) :
    sk.address = wa.address ∧ sk.publicKey = wa.publicKey := by
  unfold deriveBtcSigningKey at hs
  unfold deriveBtcAddress at ha
  by_cases g1 : root.length ≠ 32
  · rw [if_pos g1] at hs
    exact Except.noConfusion hs
  · rw [if_neg g1] at hs
    rw [if_neg g1] at ha
    by_cases g2 : index < 0
    · rw [if_pos g2] at hs
      exact Except.noConfusion hs
    · rw [if_neg g2] at hs
      rw [if_neg g2] at ha
      dsimp only at hs ha
      cases hpriv : (hd root (hdPathFor btcPathBase index.toNat)).privateKey with
      | none =>
        simp only [hpriv] at hs
        exact Except.noConfusion hs
      | some priv =>
        cases hpub : (hd root (hdPathFor btcPathBase index.toNat)).publicKey with
        | none =>
          simp only [hpriv, hpub] at hs
          exact Except.noConfusion hs
        | some pub =>
          simp only [hpriv, hpub, Except.ok.injEq] at hs ha
          subst hs
          subst ha
          exact ⟨rfl, rfl⟩

theorem solConsistency (sha512 edPub b58enc : List Nat → List Nat)
    (root : List Nat) (index : Int) (sk : SigningKey) (wa : WalletAccount)
    (hs : deriveSolSigningKey sha512 edPub b58enc root index = Except.ok sk)
    (ha : deriveSolAddress sha512 edPub b58enc root index = Except.ok wa) :
    sk.address = wa.address ∧ sk.publicKey = wa.publicKey := by
  unfold deriveSolSigningKey at hs
  unfold deriveSolAddress at ha
  by_cases g1 : root.length ≠ 32
  · rw [if_pos g1] at hs
    exact Except.noConfusion hs
  · rw [if_neg g1] at hs
    rw [if_neg g1] at ha
    by_cases g2 : index < 0
    · rw [if_pos g2] at hs
      exact Except.noConfusion hs
    · rw [if_neg g2] at hs
      rw [if_neg g2] at ha
      simp only [Except.ok.injEq] at hs ha
      subst hs
      subst ha
      exact ⟨rfl, rfl⟩

/-- Claim C7: for each chain, the signing-key variant and the address
variant of derivation agree whenever both succeed — same address string and
byte-identical public key — for every choice of the external primitives,
root and index. -/
theorem signing_key_address_consistency (hd : List Nat → List Nat → HDNode)
    (pd keccak sha256 ripemd160 toWords : List Nat → List Nat)
    (b32enc : List Nat → List Nat → Bool → List Nat)
    (sha512 edPub b58enc : List Nat → List Nat) (root : List Nat) (index : Int)
    (skE skB skS : SigningKey) (waE waB waS : WalletAccount)
    (hsE : deriveEthSigningKey hd pd keccak root index = Except.ok skE)
    (haE : deriveEthAddress hd pd keccak root index = Except.ok waE)
    (hsB : deriveBtcSigningKey hd sha256 ripemd160 toWords b32enc root index = Except.ok skB)
    (haB : deriveBtcAddress hd sha256 ripemd160 toWords b32enc root index = Except.ok waB)
    (hsS : deriveSolSigningKey sha512 edPub b58enc root index = Except.ok skS)
    (haS : deriveSolAddress sha512 edPub b58enc root index = Except.ok waS) :
    (skE.address = waE.address ∧ skE.publicKey = waE.publicKey) ∧
    (skB.address = waB.address ∧ skB.publicKey = waB.publicKey) ∧
    (skS.address = waS.address ∧ skS.publicKey = waS.publicKey) :=
  ⟨ethConsistency hd pd keccak root index skE waE hsE haE,
   btcConsistency hd sha256 ripemd160 toWords b32enc root index skB waB hsB haB,
   solConsistency sha512 edPub b58enc root index skS waS hsS haS⟩

theorem signing_key_address_consistency_witness :
    ((exOkSk (deriveEthSigningKey testHd testPd testKeccak (List.replicate 32 5) 0)).address =
        (exOkWa (deriveEthAddress testHd testPd testKeccak (List.replicate 32 5) 0)).address ∧
      (exOkSk (deriveEthSigningKey testHd testPd testKeccak (List.replicate 32 5) 0)).publicKey =
        (exOkWa (deriveEthAddress testHd testPd testKeccak (List.replicate 32 5) 0)).publicKey) ∧
    ((exOkSk (deriveBtcSigningKey testHd testSha256 testRipemd testWords testB32enc
          (List.replicate 32 5) 0)).address =
        (exOkWa (deriveBtcAddress testHd testSha256 testRipemd testWords testB32enc
          (List.replicate 32 5) 0)).address ∧
      (exOkSk (deriveBtcSigningKey testHd testSha256 testRipemd testWords testB32enc
          (List.replicate 32 5) 0)).publicKey =
        (exOkWa (deriveBtcAddress testHd testSha256 testRipemd testWords testB32enc
          (List.replicate 32 5) 0)).publicKey) ∧
    ((exOkSk (deriveSolSigningKey testSha testEdPub testB58 (List.replicate 32 5) 0)).address =
        (exOkWa (deriveSolAddress testSha testEdPub testB58 (List.replicate 32 5) 0)).address ∧
      (exOkSk (deriveSolSigningKey testSha testEdPub testB58 (List.replicate 32 5) 0)).publicKey =
        (exOkWa (deriveSolAddress testSha testEdPub testB58 (List.replicate 32 5) 0)).publicKey) :=
  signing_key_address_consistency testHd testPd testKeccak testSha256 testRipemd testWords
    testB32enc testSha testEdPub testB58 (List.replicate 32 5) 0
    (exOkSk (deriveEthSigningKey testHd testPd testKeccak (List.replicate 32 5) 0))
    (exOkSk (deriveBtcSigningKey testHd testSha256 testRipemd testWords testB32enc
      (List.replicate 32 5) 0))
    (exOkSk (deriveSolSigningKey testSha testEdPub testB58 (List.replicate 32 5) 0))
    (exOkWa (deriveEthAddress testHd testPd testKeccak (List.replicate 32 5) 0))
    (exOkWa (deriveBtcAddress testHd testSha256 testRipemd testWords testB32enc
      (List.replicate 32 5) 0))
    (exOkWa (deriveSolAddress testSha testEdPub testB58 (List.replicate 32 5) 0))
    rfl rfl rfl rfl rfl rfl

theorem jsToLowerCode_of_lower_hex (c : Nat) (h : isLowerHexCode c = true) :
    jsToLowerCode c = c := by
  simp only [isLowerHexCode, decide_eq_true_eq] at h
  unfold jsToLowerCode
  split_ifs with hc
  · omega
  · rfl

theorem jsToLowerCode_upper_of_lower_hex (c : Nat) (h : isLowerHexCode c = true) :
    jsToLowerCode (asciiUpperCode c) = c := by
  simp only [isLowerHexCode, decide_eq_true_eq] at h
  unfold asciiUpperCode jsToLowerCode
  split_ifs <;> omega

theorem map_jsToLowerCode_of_lower_hex (s : List Nat) (h : s.all isLowerHexCode = true) :
    s.map jsToLowerCode = s := by
  induction s with
  | nil => rfl
  | cons c cs ih =>
    simp only [List.all_cons, Bool.and_eq_true] at h
    simp only [List.map_cons, jsToLowerCode_of_lower_hex c h.1, ih h.2]

theorem checksumMap_map_lower (hash : List Nat) :
    ∀ (i : Nat) (s : List Nat), s.all isLowerHexCode = true →
      (checksumMap hash i s).map jsToLowerCode = s := by
  intro i s
  induction s generalizing i with
  | nil => intro _; rfl
  | cons c cs ih =>
    intro h
    simp only [List.all_cons, Bool.and_eq_true] at h
    simp only [checksumMap, List.map_cons]
    rw [ih (i + 1) h.2]
    congr 1
    split_ifs <;>
      first
      | exact jsToLowerCode_upper_of_lower_hex c h.1
      | exact jsToLowerCode_of_lower_hex c h.1

theorem byteHexCodes_all_lower (b : Nat) : (byteHexCodes b).all isLowerHexCode = true := by
  have hdig : ∀ n : Nat, n < 16 → isLowerHexCode (hexDigitCode n) = true := by
    intro n hn
    unfold hexDigitCode
    simp only [isLowerHexCode, decide_eq_true_eq]
    split_ifs with hc
    · omega
    · omega
  simp only [byteHexCodes, List.all_cons, List.all_nil, Bool.and_eq_true, Bool.and_true]
  exact ⟨hdig _ (Nat.mod_lt _ (by omega)), hdig _ (Nat.mod_lt _ (by omega))⟩

theorem bytesToHexCodes_all_lower (bs : List Nat) :
    (bytesToHexCodes bs).all isLowerHexCode = true := by
  induction bs with
  | nil => rfl
  | cons b rest ih =>
    simp only [bytesToHexCodes, List.map_cons, List.flatten_cons, List.all_append,
      Bool.and_eq_true]
    exact ⟨byteHexCodes_all_lower b, ih⟩

theorem replace0xOnce_cons (s : List Nat) : replace0xOnce (48 :: 120 :: s) = s := by
  simp [replace0xOnce]

theorem toChecksumAddress_eval (keccak : List Nat → List Nat) (s : List Nat)
    (h : s.all isLowerHexCode = true) :
    toChecksumAddress keccak (48 :: 120 :: s) = 48 :: 120 :: checksumMap (keccak s) 0 s := by
  unfold toChecksumAddress
  have hm : (48 :: 120 :: s).map jsToLowerCode = 48 :: 120 :: s := by
    simp only [List.map_cons, map_jsToLowerCode_of_lower_hex s h]
    norm_num [jsToLowerCode]
  rw [hm, replace0xOnce_cons]

theorem toChecksumAddress_fixed (keccak : List Nat → List Nat) (s : List Nat)
    (h : s.all isLowerHexCode = true) :
    toChecksumAddress keccak (toChecksumAddress keccak (48 :: 120 :: s)) =
      toChecksumAddress keccak (48 :: 120 :: s) := by
  rw [toChecksumAddress_eval keccak s h]
  unfold toChecksumAddress
  have hm : (48 :: 120 :: checksumMap (keccak s) 0 s).map jsToLowerCode =
      48 :: 120 :: s := by
    simp only [List.map_cons, checksumMap_map_lower (keccak s) 0 s h]
    norm_num [jsToLowerCode]
  rw [hm, replace0xOnce_cons]

/-- Claim C6: every address produced by `deriveEthAddress` is a fixed point
of re-checksumming — applying `toChecksumAddress` (which lowercases the 40
hex characters and re-applies the EIP-55 nibble rule) to the produced
address returns it unchanged — for every choice of the external HD, point
decompression and Keccak primitives. -/
theorem deriveEthAddress_checksum_fixed_point (hd : List Nat → List Nat → HDNode)
    (pd keccak : List Nat → List Nat) (root : List Nat) (index : Int) (wa : WalletAccount)
    (h : deriveEthAddress hd pd keccak root index = Except.ok wa) :
    toChecksumAddress keccak wa.address = wa.address := by
  unfold deriveEthAddress at h
  by_cases g1 : root.length ≠ 32
  · rw [if_pos g1] at h
    exact Except.noConfusion h
  · rw [if_neg g1] at h
    by_cases g2 : index < 0
    · rw [if_pos g2] at h
      exact Except.noConfusion h
    · rw [if_neg g2] at h
      dsimp only at h
      cases hpub : (hd root (hdPathFor ethPathBase index.toNat)).publicKey with
      | none =>
        simp only [hpub] at h
        exact Except.noConfusion h
      | some pub =>
        simp only [hpub, Except.ok.injEq] at h
        subst h
        exact toChecksumAddress_fixed keccak _ (bytesToHexCodes_all_lower _)

theorem deriveEthAddress_checksum_fixed_point_witness :
    toChecksumAddress testKeccak
        (exOkWa (deriveEthAddress testHd testPd testKeccak (List.replicate 32 5) 0)).address =
      (exOkWa (deriveEthAddress testHd testPd testKeccak (List.replicate 32 5) 0)).address :=
  deriveEthAddress_checksum_fixed_point testHd testPd testKeccak (List.replicate 32 5) 0
    (exOkWa (deriveEthAddress testHd testPd testKeccak (List.replicate 32 5) 0)) rfl

theorem hkdfExpand_zero_rem (hm : List Nat → List Nat → List Nat) (prk info : List Nat) :
    ∀ (fuel : Nat) (t : List Nat) (counter : Nat),
      hkdfExpand hm prk info fuel t 0 counter = [] := by
  intro fuel t counter
  cases fuel <;> simp [hkdfExpand]

theorem hkdfExpand_eq_spec (hm : List Nat → List Nat → List Nat) (prk info : List Nat)
    (h32 : ∀ k d, (hm k d).length = 32) :
    ∀ (rem fuel i : Nat), rem ≤ fuel →
      hkdfExpand hm prk info fuel (hkdfSpecT hm prk info i) rem (i + 1) =
        List.take rem
          (((List.range ((rem + 31) / 32)).map
            (fun j => hkdfSpecT hm prk info (i + 1 + j))).flatten) := by
  intro rem
  induction rem using Nat.strong_induction_on with
  | _ rem II =>
    intro fuel i hle
    match rem, fuel, hle with
    | 0, 0, _ => simp [hkdfExpand]
    | 0, fuel + 1, _ => simp [hkdfExpand]
    | r + 1, fuel + 1, hle =>
      have hne : r + 1 ≠ 0 := Nat.succ_ne_zero r
      simp only [hkdfExpand, if_neg hne]
      have ht2 : hm prk (hkdfSpecT hm prk info i ++ info ++ [(i + 1) % 256]) =
          hkdfSpecT hm prk info (i + 1) := rfl
      rw [ht2]
      have hlen : (hkdfSpecT hm prk info (i + 1)).length = 32 := h32 prk _
      rw [hlen]
      by_cases hsmall : r + 1 ≤ 32
      · rw [Nat.min_eq_right hsmall, Nat.sub_self, hkdfExpand_zero_rem, List.append_nil]
        have hone : (r + 1 + 31) / 32 = 1 := by omega
        have hr1 : List.range 1 = [0] := rfl
        rw [hone, hr1]
        simp
      · have h32lt : 32 ≤ r + 1 := by omega
        rw [Nat.min_eq_left h32lt]
        have htake : List.take 32 (hkdfSpecT hm prk info (i + 1)) =
            hkdfSpecT hm prk info (i + 1) :=
          List.take_of_length_le (le_of_eq hlen)
        rw [htake]
        have hrec := II (r + 1 - 32) (by omega) (fuel) (i + 1) (by omega)
        rw [hrec]
        have hn : (r + 1 + 31) / 32 = r / 32 + 1 := by omega
        rw [hn, List.range_succ_eq_map]
        simp only [List.map_cons, List.map_map, List.flatten_cons, Nat.add_zero]
        have hh : (hkdfSpecT hm prk info (i + 1)).length ≤ r + 1 := by
          rw [hlen]
          omega
        rw [List.take_append_eq_append_take, hlen, List.take_of_length_le hh]
        congr 1
        have hn2 : (r + 1 - 32 + 31) / 32 = r / 32 := by omega
        rw [hn2]
        congr 1
        congr 1
        apply List.map_congr_left
        intro a _
        simp only [Function.comp]
        congr 1
        omega

/-- Claim C4: for every output length in 1..8160 and any HMAC primitive
with 32-byte blocks, the embedded `hkdf` returns exactly the first
`length` bytes of `T(1) || T(2) || ...` with `PRK = HMAC(salt, ikm)`,
`T(0)` empty and `T(i) = HMAC(PRK, T(i-1) || info || i)` with a one-byte
counter starting at 1 — the RFC 5869 extract-then-expand construction as
the spec states it. -/
theorem hkdf_matches_rfc5869 (hm : List Nat → List Nat → List Nat)
    (ikm info salt : List Nat) (len : Int)
    (h32 : ∀ k d, (hm k d).length = 32) (h1 : 1 ≤ len) (h2 : len ≤ 8160) :
    hkdf hm ikm info salt len =
      Except.ok (hkdfSpecBytes hm ikm info salt len.toNat) := by
  have hcond : ¬(len ≤ 0 ∨ (MAX_HKDF_LEN : Int) < len) := by
    simp only [MAX_HKDF_LEN]
    omega
  unfold hkdf
  rw [if_neg hcond]
  dsimp only
  congr 1
  unfold hkdfSpecBytes
  dsimp only
  have key : hkdfExpand hm (hm salt ikm) info len.toNat [] len.toNat 1 =
      List.take len.toNat
        (((List.range ((len.toNat + 31) / 32)).map
          (fun j => hkdfSpecT hm (hm salt ikm) info (0 + 1 + j))).flatten) :=
    hkdfExpand_eq_spec hm (hm salt ikm) info h32 len.toNat len.toNat 0 le_rfl
  rw [key]
  congr 1
  congr 1
  apply List.map_congr_left
  intro a _
  congr 1
  omega

theorem hkdf_matches_rfc5869_witness :
    hkdf testHmac32 [1, 2] [3] [4, 5] 40 =
      Except.ok (hkdfSpecBytes testHmac32 [1, 2] [3] [4, 5] (Int.toNat 40)) :=
  hkdf_matches_rfc5869 testHmac32 [1, 2] [3] [4, 5] 40
    (fun k d => by simp [testHmac32]) (by decide) (by decide)
